import Mathlib

/-!
Verification of the byte-range source layer and the `TProfile2D` behavior of
the uproot4 excerpt.

The chunk-fetching layer (`uproot4.source.chunk`, `uproot4.source.file`,
`uproot4.source.memmap`, `uproot4.source.http`, `uproot4.source.xrootd`) is
exercised by `tests/test_0007-single-chunk-interface.py` but its modules are
not part of the excerpt, so the layer is modelled from the specification
(spec.md §§3-7).  `uproot4/behaviors/TProfile2D.py` is part of the excerpt
and is embedded directly.
-/

namespace Uproot

/-- Modelled from the spec: the error taxonomy of §7 for the source layer,
whose implementation modules (`uproot4.source.*`) are missing from the
excerpt. -/
inductive Err where
  | resourceUnavailable
  | fetchError
  | protocolError
  | timeout
  | stateError
  | cancelled
  | invariantViolation
  deriving DecidableEq, Repr

/-- Modelled from the spec: a Chunk is an immutable byte buffer tagged with
its `[start, stop)` range (spec.md §3, §4.1).  Bytes are modelled as natural
numbers. -/
structure Chunk where
  start : Nat
  stop : Nat
  raw_data : List Nat
  deriving DecidableEq, Repr

/-- The `[a, b)` slice of a byte sequence. -/
def sliceBytes (data : List Nat) (a b : Nat) : List Nat :=
  (data.drop a).take (b - a)

/-- A range request is valid for resident data when `start <= stop` and
`stop` does not pass the end of the data. -/
def validRange (data : List Nat) (r : Nat × Nat) : Prop :=
  r.1 ≤ r.2 ∧ r.2 ≤ data.length

instance (data : List Nat) (r : Nat × Nat) : Decidable (validRange data r) :=
  inferInstanceAs (Decidable (_ ∧ _))

/-- Modelled from the spec: fetching one `[start, stop)` range from the
resource's bytes.  A chunk is never handed out partially filled: an
out-of-range request fails with `fetchError`, it never returns short data
(spec.md §3 invariant, §4.6, §7). -/
def fetchRange (data : List Nat) (r : Nat × Nat) : Except Err Chunk :=
  if validRange data r then
    .ok ⟨r.1, r.2, sliceBytes data r.1 r.2⟩
  else
    .error .fetchError

theorem sliceBytes_length (data : List Nat) (a b : Nat)
    (hab : a ≤ b) (hb : b ≤ data.length) :
    (sliceBytes data a b).length = b - a := by
  simp only [sliceBytes, List.length_take, List.length_drop]
  omega

theorem fetchRange_ok_spec (data : List Nat) (r : Nat × Nat) (c : Chunk)
    (h : fetchRange data r = .ok c) :
    c.start = r.1 ∧ c.stop = r.2 ∧ c.raw_data = sliceBytes data r.1 r.2 ∧
      c.raw_data.length = c.stop - c.start := by
  unfold fetchRange at h
  split at h
  case isTrue hv =>
    cases h
    exact ⟨rfl, rfl, rfl, sliceBytes_length data r.1 r.2 hv.1 hv.2⟩
  case isFalse => cases h

theorem fetchRange_of_valid (data : List Nat) (r : Nat × Nat)
    (h : validRange data r) :
    fetchRange data r = .ok ⟨r.1, r.2, sliceBytes data r.1 r.2⟩ := by
  simp [fetchRange, h]

theorem fetchRange_of_invalid (data : List Nat) (r : Nat × Nat)
    (h : ¬ validRange data r) :
    fetchRange data r = .error .fetchError := by
  simp [fetchRange, h]

/-- Modelled from the spec: the worker-pool result board (§4.2).  Tasks are
submitted positionally; `sched` is the order in which tasks complete, and
each completion deposits its result in the slot of its own submission
index. -/
def gather (tasks : List α) (sched : List Nat) : List (Option α) :=
  sched.foldl (fun acc i => acc.set i tasks[i]?) (List.replicate tasks.length none)

/-- A completion schedule is valid for `n` tasks when every task eventually
completes. -/
def validSched (sched : List Nat) (n : Nat) : Prop :=
  ∀ j < n, j ∈ sched

instance (sched : List Nat) (n : Nat) : Decidable (validSched sched n) :=
  inferInstanceAs (Decidable (∀ j < n, j ∈ sched))

theorem foldl_set_length (sched : List Nat) (u : Nat → β) (init : List β) :
    (sched.foldl (fun acc i => acc.set i (u i)) init).length = init.length := by
  induction sched generalizing init with
  | nil => rfl
  | cons i rest ih => simpa using ih (init.set i (u i))

theorem foldl_set_getElem? (sched : List Nat) (u : Nat → β) (init : List β) (j : Nat) :
    (sched.foldl (fun acc i => acc.set i (u i)) init)[j]? =
      if j ∈ sched ∧ j < init.length then some (u j) else init[j]? := by
  induction sched generalizing init with
  | nil => simp
  | cons i rest ih =>
    simp only [List.foldl_cons]
    rw [ih]
    simp only [List.length_set, List.mem_cons]
    by_cases hj : j ∈ rest ∧ j < init.length
    · simp [hj]
    · rw [if_neg hj, List.getElem?_set]
      by_cases hij : i = j
      · subst hij
        by_cases hlen : i < init.length
        · simp [hlen, hj]
        · have : init[i]? = none := by
            rw [List.getElem?_eq_none_iff]; omega
          simp [hlen, this, hj]
      · have : ¬ ((j = i ∨ j ∈ rest) ∧ j < init.length) := by
          rintro ⟨hj1 | hj2, hlen⟩
          · exact hij hj1.symm
          · exact hj ⟨hj2, hlen⟩
        simp [hij, this, hj]

theorem gather_length (tasks : List α) (sched : List Nat) :
    (gather tasks sched).length = tasks.length := by
  unfold gather
  rw [foldl_set_length]
  simp

theorem gather_getElem? (tasks : List α) (sched : List Nat) (j : Nat) :
    (gather tasks sched)[j]? =
      if j ∈ sched ∧ j < tasks.length then some tasks[j]?
      else (List.replicate tasks.length (none : Option α))[j]? := by
  unfold gather
  rw [foldl_set_getElem?]
  simp

theorem gather_of_validSched (tasks : List α) (sched : List Nat)
    (h : validSched sched tasks.length) :
    gather tasks sched = tasks.map some := by
  apply List.ext_getElem?
  intro j
  rw [gather_getElem?]
  by_cases hj : j < tasks.length
  · rw [if_pos ⟨h j hj, hj⟩, List.getElem?_map, List.getElem?_eq_getElem hj]
    simp
  · have h1 : tasks[j]? = none := by rw [List.getElem?_eq_none_iff]; omega
    have h2 : (List.replicate tasks.length (none : Option α))[j]? = none := by
      rw [List.getElem?_eq_none_iff]; simpa using hj
    simp [hj, h2, List.getElem?_map, h1]

/-- Any result the board exposes at slot `j` is the result of task `j`
itself, whatever the completion schedule was. -/
theorem gather_getElem?_some (tasks : List α) (sched : List Nat) (j : Nat) (x : α)
    (h : (gather tasks sched)[j]? = some (some x)) :
    tasks[j]? = some x := by
  rw [gather_getElem?] at h
  split at h
  · exact Option.some_injective _ h
  · rcases hrep : (List.replicate tasks.length (none : Option α))[j]? with _ | v
    · rw [hrep] at h; cases h
    · rw [hrep] at h
      have := List.getElem?_mem hrep
      have hv : v = none := by simpa using List.eq_of_mem_replicate this
      subst hv
      cases h

/-- Modelled from the spec: the worker pool of §4.2.  With `num_workers = 0`
every fetch runs inline on the caller's thread, in submission order; with
one or more workers the completion order `sched` is arbitrary.  Either way
results land in the slot of their submission index. -/
def runPool (num_workers : Nat) (sched : List Nat) (tasks : List α) : List (Option α) :=
  if num_workers = 0 then gather tasks (List.range tasks.length)
  else gather tasks sched

theorem runPool_of_validSched (num_workers : Nat) (sched : List Nat) (tasks : List α)
    (h : validSched sched tasks.length) :
    runPool num_workers sched tasks = tasks.map some := by
  unfold runPool
  split
  · exact gather_of_validSched tasks _ (fun j hj => List.mem_range.mpr hj)
  · exact gather_of_validSched tasks sched h

theorem runPool_getElem?_some (num_workers : Nat) (sched : List Nat)
    (tasks : List α) (j : Nat) (x : α)
    (h : (runPool num_workers sched tasks)[j]? = some (some x)) :
    tasks[j]? = some x := by
  unfold runPool at h
  split at h
  · exact gather_getElem?_some tasks _ j x h
  · exact gather_getElem?_some tasks sched j x h

/-- Modelled from the spec: the namespace a Source is opened against — a
partial map from resource identity (local path or URL) to the resource's
bytes.  It stands for the local filesystem or the remote server, whichever
the backend talks to. -/
structure FileSystem where
  files : String → Option (List Nat)

/-- Modelled from the spec: the eager open-time resource check of §4.3 —
opening fails with `resourceUnavailable` when the target does not exist,
before any chunk request is possible. -/
def openResource (fs : FileSystem) (ident : String) : Except Err (List Nat) :=
  match fs.files ident with
  | none => .error .resourceUnavailable
  | some d => .ok d

/-- Modelled from the spec: `FileSource` (§4.4) — synchronous positioned
reads, optionally delegated to a worker pool of `num_workers` threads. -/
structure FileSource where
  data : List Nat
  num_workers : Nat

def FileSource.open (fs : FileSystem) (path : String) (num_workers : Nat) :
    Except Err FileSource :=
  (openResource fs path).map fun d => ⟨d, num_workers⟩

def FileSource.chunk (s : FileSource) (start stop : Nat) : Except Err Chunk :=
  fetchRange s.data (start, stop)

def FileSource.chunks (s : FileSource) (sched : List Nat)
    (ranges : List (Nat × Nat)) : List (Option (Except Err Chunk)) :=
  runPool s.num_workers sched (ranges.map (fetchRange s.data))

/-- Modelled from the spec: `MemmapSource` (§4.5) — the file is mapped at
open time; reads are views over the mapping, with `num_fallback_workers`
only offloading delivery. -/
structure MemmapSource where
  data : List Nat
  num_fallback_workers : Nat

def MemmapSource.open (fs : FileSystem) (path : String)
    (num_fallback_workers : Nat) : Except Err MemmapSource :=
  (openResource fs path).map fun d => ⟨d, num_fallback_workers⟩

def MemmapSource.chunk (s : MemmapSource) (start stop : Nat) : Except Err Chunk :=
  fetchRange s.data (start, stop)

def MemmapSource.chunks (s : MemmapSource) (sched : List Nat)
    (ranges : List (Nat × Nat)) : List (Option (Except Err Chunk)) :=
  runPool s.num_fallback_workers sched (ranges.map (fetchRange s.data))

/-- Modelled from the spec: `MultithreadedHTTPSource` (§4.6) — one range GET
per requested range, distributed across `num_workers` threads. -/
structure MultithreadedHTTPSource where
  data : List Nat
  num_workers : Nat

def MultithreadedHTTPSource.open (web : FileSystem) (url : String)
    (num_workers : Nat) : Except Err MultithreadedHTTPSource :=
  (openResource web url).map fun d => ⟨d, num_workers⟩

def MultithreadedHTTPSource.chunk (s : MultithreadedHTTPSource)
    (start stop : Nat) : Except Err Chunk :=
  fetchRange s.data (start, stop)

def MultithreadedHTTPSource.chunks (s : MultithreadedHTTPSource)
    (sched : List Nat) (ranges : List (Nat × Nat)) :
    List (Option (Except Err Chunk)) :=
  runPool s.num_workers sched (ranges.map (fetchRange s.data))

/-- Modelled from the spec: `HTTPSource` (§4.6) — one multipart range
request answers every sub-range at once; the response is demultiplexed
positionally and every handle is already resolved when the batch returns. -/
structure HTTPSource where
  data : List Nat
  num_fallback_workers : Nat

def HTTPSource.open (web : FileSystem) (url : String)
    (num_fallback_workers : Nat) : Except Err HTTPSource :=
  (openResource web url).map fun d => ⟨d, num_fallback_workers⟩

def HTTPSource.chunk (s : HTTPSource) (start stop : Nat) : Except Err Chunk :=
  fetchRange s.data (start, stop)

def HTTPSource.chunks (s : HTTPSource) (ranges : List (Nat × Nat)) :
    List (Option (Except Err Chunk)) :=
  (ranges.map (fetchRange s.data)).map some

/-- Modelled from the spec: `MultithreadedXRootDSource` (§4.7) — concurrent
positioned reads against one open remote handle. -/
structure MultithreadedXRootDSource where
  data : List Nat
  num_workers : Nat

def MultithreadedXRootDSource.open (net : FileSystem) (url : String)
    (num_workers : Nat) : Except Err MultithreadedXRootDSource :=
  (openResource net url).map fun d => ⟨d, num_workers⟩

def MultithreadedXRootDSource.chunk (s : MultithreadedXRootDSource)
    (start stop : Nat) : Except Err Chunk :=
  fetchRange s.data (start, stop)

def MultithreadedXRootDSource.chunks (s : MultithreadedXRootDSource)
    (sched : List Nat) (ranges : List (Nat × Nat)) :
    List (Option (Except Err Chunk)) :=
  runPool s.num_workers sched (ranges.map (fetchRange s.data))

/-- Modelled from the spec: splitting a range list into successive batches
of at most `m` elements each (§4.7, §9: a pure splitting function
independent of the I/O call). -/
def toBatches (m : Nat) : List α → List (List α)
  | [] => []
  | x :: xs => (x :: xs.take (m - 1)) :: toBatches m (xs.drop (m - 1))
termination_by l => l.length
decreasing_by simp only [List.length_drop, List.length_cons]; omega

/-- Modelled from the spec: `max_num_elements = None` means no chunking —
all ranges go out in one vector request; `some m` splits into batches
within the limit (§4.7). -/
def splitRanges (maxElements : Option Nat) (ranges : List (Nat × Nat)) :
    List (List (Nat × Nat)) :=
  match maxElements with
  | none => [ranges]
  | some m => toBatches m ranges

/-- Modelled from the spec: one vectorized-read round trip answering a batch
of ranges (§4.7). -/
def vectorRead (data : List Nat) (batch : List (Nat × Nat)) :
    List (Except Err Chunk) :=
  batch.map (fetchRange data)

/-- Modelled from the spec: `XRootDSource` (§4.7) — vector reads, split by
`max_num_elements`, results concatenated back in request order. -/
structure XRootDSource where
  data : List Nat
  max_num_elements : Option Nat

def XRootDSource.open (net : FileSystem) (url : String)
    (max_num_elements : Option Nat) : Except Err XRootDSource :=
  (openResource net url).map fun d => ⟨d, max_num_elements⟩

def XRootDSource.chunks (s : XRootDSource) (ranges : List (Nat × Nat)) :
    List (Except Err Chunk) :=
  ((splitRanges s.max_num_elements ranges).map (vectorRead s.data)).flatten

def XRootDSource.chunk (s : XRootDSource) (start stop : Nat) : Except Err Chunk :=
  fetchRange s.data (start, stop)

theorem toBatches_flatten (m : Nat) (l : List α) : (toBatches m l).flatten = l := by
  suffices h : ∀ n (l : List α), l.length = n → (toBatches m l).flatten = l from
    h l.length l rfl
  intro n
  induction n using Nat.strong_induction_on with
  | _ n ih =>
    intro l hn
    cases l with
    | nil => simp [toBatches]
    | cons x xs =>
      simp only [toBatches, List.flatten_cons]
      rw [ih (xs.drop (m - 1)).length
        (by simp only [List.length_drop]; simp only [List.length_cons] at hn; omega)
        (xs.drop (m - 1)) rfl]
      simp

theorem toBatches_batch_le (m : Nat) (hm : 1 ≤ m) (l : List α) :
    ∀ bt ∈ toBatches m l, bt.length ≤ m := by
  suffices h : ∀ n (l : List α), l.length = n → ∀ bt ∈ toBatches m l, bt.length ≤ m from
    h l.length l rfl
  intro n
  induction n using Nat.strong_induction_on with
  | _ n ih =>
    intro l hn
    cases l with
    | nil => simp [toBatches]
    | cons x xs =>
      simp only [toBatches, List.mem_cons]
      rintro bt (rfl | hbt)
      · simp only [List.length_cons, List.length_take]
        have := Nat.min_le_left (m - 1) xs.length
        omega
      · exact ih (xs.drop (m - 1)).length
          (by simp only [List.length_drop]; simp only [List.length_cons] at hn; omega)
          (xs.drop (m - 1)) rfl bt hbt

/-- Whatever the element cap, the vector-read batches reassemble to the
requested range list in order. -/
theorem splitRanges_flatten (maxElements : Option Nat) (ranges : List (Nat × Nat)) :
    (splitRanges maxElements ranges).flatten = ranges := by
  cases maxElements with
  | none => simp [splitRanges]
  | some m => simpa [splitRanges] using toBatches_flatten m ranges

theorem XRootDSource.chunks_eq (s : XRootDSource) (ranges : List (Nat × Nat)) :
    XRootDSource.chunks s ranges = ranges.map (fetchRange s.data) := by
  unfold XRootDSource.chunks vectorRead
  rw [← List.map_flatten, splitRanges_flatten]

/-- The tagged-backend dispatcher of spec.md §9: one capability interface,
backend variants selected at construction. -/
inductive Backend where
  | file
  | memmap
  | httpMultithreaded
  | httpMultipart
  | xrootdMultithreaded
  | xrootdVector
  deriving DecidableEq, Repr

/-- Batched fetch through any backend: `w` is the worker (or fallback
worker) count, `sched` the internal completion order, `maxElements` the
vector-read element cap. -/
def backendChunks (b : Backend) (data : List Nat) (w : Nat)
    (maxElements : Option Nat) (sched : List Nat)
    (ranges : List (Nat × Nat)) : List (Option (Except Err Chunk)) :=
  match b with
  | .file => FileSource.chunks ⟨data, w⟩ sched ranges
  | .memmap => MemmapSource.chunks ⟨data, w⟩ sched ranges
  | .httpMultithreaded => MultithreadedHTTPSource.chunks ⟨data, w⟩ sched ranges
  | .httpMultipart => HTTPSource.chunks ⟨data, w⟩ ranges
  | .xrootdMultithreaded => MultithreadedXRootDSource.chunks ⟨data, w⟩ sched ranges
  | .xrootdVector => (XRootDSource.chunks ⟨data, maxElements⟩ ranges).map some

theorem backendChunks_of_validSched (b : Backend) (data : List Nat) (w : Nat)
    (maxElements : Option Nat) (sched : List Nat) (ranges : List (Nat × Nat))
    (hs : validSched sched ranges.length) :
    backendChunks b data w maxElements sched ranges =
      ranges.map (fun r => some (fetchRange data r)) := by
  have hs' : validSched sched (ranges.map (fetchRange data)).length := by
    simpa using hs
  cases b <;>
    simp [backendChunks, FileSource.chunks, MemmapSource.chunks,
      MultithreadedHTTPSource.chunks, HTTPSource.chunks,
      MultithreadedXRootDSource.chunks, XRootDSource.chunks_eq,
      runPool_of_validSched _ sched _ hs', List.map_map, Function.comp]

theorem backendChunks_getElem?_some (b : Backend) (data : List Nat) (w : Nat)
    (maxElements : Option Nat) (sched : List Nat) (ranges : List (Nat × Nat))
    (j : Nat) (e : Except Err Chunk)
    (h : (backendChunks b data w maxElements sched ranges)[j]? = some (some e)) :
    (ranges.map (fetchRange data))[j]? = some e := by
  cases b
  case file => exact runPool_getElem?_some _ sched _ j e h
  case memmap => exact runPool_getElem?_some _ sched _ j e h
  case httpMultithreaded => exact runPool_getElem?_some _ sched _ j e h
  case httpMultipart =>
    simp only [backendChunks, HTTPSource.chunks, List.getElem?_map] at h ⊢
    rcases hx : ranges[j]? with _ | v <;> rw [hx] at h
    · cases h
    · simpa using h
  case xrootdMultithreaded => exact runPool_getElem?_some _ sched _ j e h
  case xrootdVector =>
    simp only [backendChunks, XRootDSource.chunks_eq, List.getElem?_map] at h ⊢
    rcases hx : ranges[j]? with _ | v <;> rw [hx] at h
    · cases h
    · simpa using h

theorem runPool_length (w : Nat) (sched : List Nat) (tasks : List α) :
    (runPool w sched tasks).length = tasks.length := by
  unfold runPool
  split
  · exact gather_length tasks _
  · exact gather_length tasks sched

/-- The byte buffer a resolved, successful handle exposes; `none` for a
pending or failed handle. -/
def bufferOf : Option (Except Err Chunk) → Option (List Nat)
  | some (.ok c) => some c.raw_data
  | some (.error _) => none
  | none => none

/-- The buffers of the successfully fetched chunks of a batch, in request
order. -/
def chunkBuffers (res : List (Option (Except Err Chunk))) : List (List Nat) :=
  res.filterMap bufferOf

theorem chunkBuffers_map_fetch (data : List Nat) (ranges : List (Nat × Nat))
    (hv : ∀ r ∈ ranges, validRange data r) :
    chunkBuffers (ranges.map (fun r => some (fetchRange data r))) =
      ranges.map (fun r => sliceBytes data r.1 r.2) := by
  induction ranges with
  | nil => rfl
  | cons r rest ih =>
    have hr : validRange data r := hv r (by simp)
    have hrest : ∀ x ∈ rest, validRange data x := fun x hx => hv x (by simp [hx])
    simp only [List.map_cons, chunkBuffers, List.filterMap_cons,
      fetchRange_of_valid data r hr, bufferOf]
    exact congrArg _ (ih hrest)

/-- Contiguity of a range list: starting from offset `a`, each range begins
where the previous one stopped. -/
def chainedFrom : Nat → List (Nat × Nat) → Bool
  | _, [] => true
  | a, r :: rest => a == r.1 && decide (r.1 ≤ r.2) && chainedFrom r.2 rest

/-- The stop offset a contiguous range list reaches from offset `a`. -/
def chainEnd : Nat → List (Nat × Nat) → Nat
  | a, [] => a
  | _, r :: rest => chainEnd r.2 rest

theorem le_chainEnd (a : Nat) (rs : List (Nat × Nat))
    (h : chainedFrom a rs = true) : a ≤ chainEnd a rs := by
  induction rs generalizing a with
  | nil => simp [chainEnd]
  | cons r rest ih =>
    simp only [chainedFrom, Bool.and_eq_true, beq_iff_eq, decide_eq_true_eq] at h
    obtain ⟨⟨h1, h2⟩, h3⟩ := h
    calc a = r.1 := h1
    _ ≤ r.2 := h2
    _ ≤ chainEnd r.2 rest := ih r.2 h3

theorem sliceBytes_append (d : List Nat) (a b c : Nat)
    (hab : a ≤ b) (hbc : b ≤ c) :
    sliceBytes d a b ++ sliceBytes d b c = sliceBytes d a c := by
  unfold sliceBytes
  have h1 : c - a = (b - a) + (c - b) := by omega
  have h2 : (d.drop a).drop (b - a) = d.drop b := by
    rw [List.drop_drop]
    congr 1
    omega
  rw [h1, List.take_add, h2]

theorem flatten_slices_of_chained (d : List Nat) (a : Nat)
    (rs : List (Nat × Nat)) (h : chainedFrom a rs = true) :
    (rs.map (fun r => sliceBytes d r.1 r.2)).flatten =
      sliceBytes d a (chainEnd a rs) := by
  induction rs generalizing a with
  | nil => simp [chainEnd, sliceBytes]
  | cons r rest ih =>
    simp only [chainedFrom, Bool.and_eq_true, beq_iff_eq, decide_eq_true_eq] at h
    obtain ⟨⟨h1, h2⟩, h3⟩ := h
    subst h1
    simp only [List.map_cons, List.flatten_cons, chainEnd]
    rw [ih r.2 h3, sliceBytes_append d r.1 r.2 (chainEnd r.2 rest) h2
      (le_chainEnd r.2 rest h3)]

/-- Byte values of a string, as written to the test file. -/
def strBytes (s : String) : List Nat := s.data.map Char.toNat

/-- The content `test_file` and `test_memmap` write to the temporary file. -/
def testContent : String := "******    ...+++++++!!!!!@@@@@"

/-- The test file's bytes. -/
def testData : List Nat := strBytes testContent

/-- The ranges requested by `test_file` and `test_memmap`. -/
def testRanges : List (Nat × Nat) :=
  [(0, 6), (6, 10), (10, 13), (13, 20), (20, 25), (25, 30)]

/-- The buffers the test expects back, range by range. -/
def expectedBuffers : List String :=
  ["******", "    ", "...", "+++++++", "!!!!!", "@@@@@"]

/-- One pass of the `test_file` scenario at a given worker count: every
requested range must come back as exactly the expected buffer. -/
def checkFileSource (w : Nat) : Bool :=
  (testRanges.zip expectedBuffers).all fun p =>
    match FileSource.chunk ⟨testData, w⟩ p.1.1 p.1.2 with
    | .ok c => c.start == p.1.1 && c.stop == p.1.2 && c.raw_data == strBytes p.2
    | .error _ => false

/-- A Python exception raised by the `TProfile2D` behavior methods. -/
inductive PyErr where
  | valueError
  | notImplementedError
  deriving DecidableEq, Repr

/-- An `axis` argument as the Python code receives it: an integer or a
string. -/
inductive AxisArg where
  | num (n : Int)
  | str (s : String)
  deriving DecidableEq, Repr

/-- The `TProfile2D` behavior object of `uproot4/behaviors/TProfile2D.py`:
`member` is the ROOT member lookup `self.member(name)`, and `α` is the type
of member values. -/
structure TProfile2D (α : Type) where
  member : String → α

/-- Method `TProfile2D.edges` from the source: dispatch on the axis argument,
consulting only the `fXaxis` or `fYaxis` member.  The parameter `e` stands
for `uproot4.behaviors.TH1._edges`, whose module is not part of the
excerpt. -/
def TProfile2D.edges (e : α → β) (self : TProfile2D α) (axis : AxisArg) :
    Except PyErr β :=
  if axis = .num 0 ∨ axis = .str ("x") then
    .ok (e (self.member ("fXaxis")))
  else if axis = .num 1 ∨ axis = .str ("y") then
    .ok (e (self.member ("fYaxis")))
  else
    .error .valueError

/-- Method `TProfile2D.values` from the source: `raise NotImplementedError(repr(self))`.
The second component is the object state after the call, unchanged. -/
def TProfile2D.values (self : TProfile2D α) :
    Except PyErr Unit × TProfile2D α :=
  (.error .notImplementedError, self)

/-- Method `TProfile2D.values_errors` from the source: unconditional
`NotImplementedError`. -/
def TProfile2D.values_errors (self : TProfile2D α) (error_mode : Int) :
    Except PyErr Unit × TProfile2D α :=
  (.error .notImplementedError, self)

/-- Method `TProfile2D.to_numpy` from the source: unconditional
`NotImplementedError`. -/
def TProfile2D.to_numpy (self : TProfile2D α) (flow dd errors : Bool)
    (error_mode : Int) : Except PyErr Unit × TProfile2D α :=
  (.error .notImplementedError, self)

/-- A boost-histogram object; its content never matters because none is ever
produced. -/
structure BoostHist where
  val : Unit

/-- Method `TProfile2D.to_boost` from the source: unconditional
`NotImplementedError`. -/
def TProfile2D.to_boost (self : TProfile2D α) :
    Except PyErr BoostHist × TProfile2D α :=
  (.error .notImplementedError, self)

/-- A `hist.Hist` object wrapping a boost histogram. -/
structure HistObj where
  fromBoost : BoostHist

/-- Method `TProfile2D.to_hist` from the source:
`uproot4.extras.hist().Hist(self.to_boost())`.  The `uproot4.extras` module
is not part of the excerpt; its `hist()` import hook is modelled as
succeeding, so the evaluation of the argument `self.to_boost()` decides the
outcome. -/
def TProfile2D.to_hist (self : TProfile2D α) :
    Except PyErr HistObj × TProfile2D α :=
  match TProfile2D.to_boost self with
  | (.error e, s) => (.error e, s)
  | (.ok b, s) => (.ok ⟨b⟩, s)

/-- C1: for every backend and every `num_workers` in {0,1,2}, fetching a set
of non-overlapping valid ranges from a known byte sequence returns one
buffer per range in request order, each buffer equal to the requested slice
of the source, each buffer's length equal to `stop - start`, and the
concatenation of the buffers in request order equal to the corresponding
slice of the source bytes whenever the ranges tile it contiguously. -/
theorem C1_fetch_correct (b : Backend) (data : List Nat) (w : Nat)
    (maxElements : Option Nat) (sched : List Nat) (ranges : List (Nat × Nat))
    (a : Nat)
    (hw : w = 0 ∨ w = 1 ∨ w = 2)
    (hv : ∀ r ∈ ranges, validRange data r)
    (hs : validSched sched ranges.length) :
    chunkBuffers (backendChunks b data w maxElements sched ranges) =
      ranges.map (fun r => sliceBytes data r.1 r.2) ∧
    (chunkBuffers (backendChunks b data w maxElements sched ranges)).map
        List.length = ranges.map (fun r => r.2 - r.1) ∧
    (chainedFrom a ranges = true →
      (chunkBuffers (backendChunks b data w maxElements sched ranges)).flatten =
        sliceBytes data a (chainEnd a ranges)) := by
  have h1 : chunkBuffers (backendChunks b data w maxElements sched ranges) =
      ranges.map (fun r => sliceBytes data r.1 r.2) := by
    rw [backendChunks_of_validSched b data w maxElements sched ranges hs]
    exact chunkBuffers_map_fetch data ranges hv
  refine ⟨h1, ?_, ?_⟩
  · rw [h1, List.map_map]
    exact List.map_congr_left fun r hr =>
      sliceBytes_length data r.1 r.2 (hv r hr).1 (hv r hr).2
  · intro hc
    rw [h1, flatten_slices_of_chained data a ranges hc]

/-- C1 witness: the `test_file` scenario — `FileSource`, zero workers, the
six contiguous test ranges over the 30-byte test data. -/
theorem C1_fetch_correct_witness :
    chunkBuffers (backendChunks .file testData 0 none (List.range 6) testRanges) =
      testRanges.map (fun r => sliceBytes testData r.1 r.2) ∧
    (chunkBuffers (backendChunks .file testData 0 none (List.range 6) testRanges)).map
        List.length = testRanges.map (fun r => r.2 - r.1) ∧
    (chunkBuffers (backendChunks .file testData 0 none (List.range 6) testRanges)).flatten =
      sliceBytes testData 0 (chainEnd 0 testRanges) :=
  have h := C1_fetch_correct .file testData 0 none (List.range 6) testRanges 0
    (Or.inl rfl) (by decide) (by decide)
  ⟨h.1, h.2.1, h.2.2 (by decide)⟩

/-- C2 (counterexample): the claim's file is described as 31 bytes long, but
the content written by `test_file`, `"******    ...+++++++!!!!!@@@@@"`, is
30 bytes, so no 31-byte file holds exactly this content. -/
theorem C2_thirty_not_thirtyone : ¬ (testData.length = 31) := by decide

/-- C2 (amended): for the 30-byte local file containing
`"******    ...+++++++!!!!!@@@@@"`, requesting ranges (0,6), (6,10),
(10,13), (13,20), (20,25), (25,30) through a `FileSource` yields exactly
the buffers `"******"`, `"    "`, `"..."`, `"+++++++"`, `"!!!!!"`,
`"@@@@@"`, for every tested `num_workers` in {0,1,2}. -/
theorem C2_file_scenario :
    testData.length = 30 ∧ (([0, 1, 2] : List Nat).all checkFileSource) = true := by
  decide

/-- C3: every chunk a backend exposes carries exactly its requested range
and satisfies `len(raw_data) == stop - start`: a handle either fails or
yields full data, never short data. -/
theorem C3_chunk_invariant (b : Backend) (data : List Nat) (w : Nat)
    (maxElements : Option Nat) (sched : List Nat) (ranges : List (Nat × Nat))
    (i : Nat) (r : Nat × Nat) (c : Chunk)
    (hr : ranges[i]? = some r)
    (hc : (backendChunks b data w maxElements sched ranges)[i]? =
      some (some (.ok c))) :
    c.raw_data.length = c.stop - c.start ∧ c.start = r.1 ∧ c.stop = r.2 ∧
      c.raw_data.length = r.2 - r.1 := by
  have h := backendChunks_getElem?_some b data w maxElements sched ranges i _ hc
  rw [List.getElem?_map, hr] at h
  simp only [Option.map_some', Option.some.injEq] at h
  obtain ⟨h1, h2, _, h4⟩ := fetchRange_ok_spec data r c h
  exact ⟨h4, h1, h2, by rw [h4, h1, h2]⟩

/-- C3 witness: the first test range through `FileSource` yields the
six-star buffer of exactly `6 - 0` bytes. -/
theorem C3_chunk_invariant_witness :
    (strBytes ("******")).length = 6 - 0 ∧ (0 : Nat) = 0 ∧ (6 : Nat) = 6 ∧
      (strBytes ("******")).length = 6 - 0 :=
  C3_chunk_invariant .file testData 0 none (List.range 6) testRanges 0 (0, 6)
    ⟨0, 6, strBytes ("******")⟩ (by decide) (by rfl)

/-- C4: opening any backend against a target that does not exist fails with
`ResourceUnavailable` at construction time; no Source value is produced, so
the failure cannot be deferred to a first chunk request. -/
theorem C4_open_eager (fs : FileSystem) (path : String)
    (w fw : Nat) (maxElements : Option Nat)
    (h : fs.files path = none) :
    FileSource.open fs path w = .error .resourceUnavailable ∧
    MemmapSource.open fs path fw = .error .resourceUnavailable ∧
    MultithreadedHTTPSource.open fs path w = .error .resourceUnavailable ∧
    HTTPSource.open fs path fw = .error .resourceUnavailable ∧
    MultithreadedXRootDSource.open fs path w = .error .resourceUnavailable ∧
    XRootDSource.open fs path maxElements = .error .resourceUnavailable := by
  simp [FileSource.open, MemmapSource.open, MultithreadedHTTPSource.open,
    HTTPSource.open, MultithreadedXRootDSource.open, XRootDSource.open,
    openResource, h, Except.map]

/-- C4 witness: every backend's open fails on an empty filesystem. -/
theorem C4_open_eager_witness :
    FileSource.open ⟨fun _ => none⟩ ("missing.root") 0 =
      .error .resourceUnavailable ∧
    MemmapSource.open ⟨fun _ => none⟩ ("missing.root") 0 =
      .error .resourceUnavailable ∧
    MultithreadedHTTPSource.open ⟨fun _ => none⟩ ("missing.root") 0 =
      .error .resourceUnavailable ∧
    HTTPSource.open ⟨fun _ => none⟩ ("missing.root") 0 =
      .error .resourceUnavailable ∧
    MultithreadedXRootDSource.open ⟨fun _ => none⟩ ("missing.root") 0 =
      .error .resourceUnavailable ∧
    XRootDSource.open ⟨fun _ => none⟩ ("missing.root") none =
      .error .resourceUnavailable :=
  C4_open_eager ⟨fun _ => none⟩ ("missing.root") 0 0 none rfl

/-- C5: for both HTTP backends — the per-range `MultithreadedHTTPSource`
and the multipart `HTTPSource` — a fetch against a nonexistent path fails
with a distinguishable error (`ResourceUnavailable` here, detected at open
time); a per-range failure surfaces only in the failing chunk's own
handle — the batch is produced in full, every handle carries exactly its
own range's fetch result, and an invalid range's handle holds a
`FetchError`. -/
theorem C5_http_failure_isolation (web : FileSystem) (url : String)
    (w fw : Nat) (sched : List Nat) (data : List Nat)
    (ranges : List (Nat × Nat)) (i : Nat) (r : Nat × Nat)
    (hmiss : web.files url = none)
    (hs : validSched sched ranges.length)
    (hi : ranges[i]? = some r) :
    (MultithreadedHTTPSource.open web url w = .error .resourceUnavailable ∨
      MultithreadedHTTPSource.open web url w = .error .fetchError) ∧
    (HTTPSource.open web url fw = .error .resourceUnavailable ∨
      HTTPSource.open web url fw = .error .fetchError) ∧
    (MultithreadedHTTPSource.chunks ⟨data, w⟩ sched ranges).length =
      ranges.length ∧
    (HTTPSource.chunks ⟨data, fw⟩ ranges).length = ranges.length ∧
    (MultithreadedHTTPSource.chunks ⟨data, w⟩ sched ranges)[i]? =
      some (some (fetchRange data r)) ∧
    (HTTPSource.chunks ⟨data, fw⟩ ranges)[i]? =
      some (some (fetchRange data r)) ∧
    (¬ validRange data r →
      (MultithreadedHTTPSource.chunks ⟨data, w⟩ sched ranges)[i]? =
        some (some (.error .fetchError))) ∧
    (¬ validRange data r →
      (HTTPSource.chunks ⟨data, fw⟩ ranges)[i]? =
        some (some (.error .fetchError))) := by
  have hlen : (MultithreadedHTTPSource.chunks ⟨data, w⟩ sched ranges).length =
      ranges.length := by
    unfold MultithreadedHTTPSource.chunks
    rw [runPool_length]
    simp
  have hlenM : (HTTPSource.chunks ⟨data, fw⟩ ranges).length = ranges.length := by
    simp [HTTPSource.chunks]
  have hentry : (MultithreadedHTTPSource.chunks ⟨data, w⟩ sched ranges)[i]? =
      some (some (fetchRange data r)) := by
    unfold MultithreadedHTTPSource.chunks
    rw [runPool_of_validSched _ sched _ (by simpa using hs)]
    simp [List.getElem?_map, hi]
  have hentryM : (HTTPSource.chunks ⟨data, fw⟩ ranges)[i]? =
      some (some (fetchRange data r)) := by
    simp [HTTPSource.chunks, List.getElem?_map, hi]
  refine ⟨Or.inl ?_, Or.inl ?_, hlen, hlenM, hentry, hentryM,
    fun hbad => ?_, fun hbad => ?_⟩
  · simp [MultithreadedHTTPSource.open, openResource, hmiss, Except.map]
  · simp [HTTPSource.open, openResource, hmiss, Except.map]
  · rw [hentry, fetchRange_of_invalid data r hbad]
  · rw [hentryM, fetchRange_of_invalid data r hbad]

/-- C5 witness: a two-range batch whose second range runs past the end of
the 30-byte test data — through both HTTP backends, the second handle
fails and the first is untouched. -/
theorem C5_http_failure_isolation_witness :
    (MultithreadedHTTPSource.open ⟨fun _ => none⟩ ("nope.html") 1 =
        .error .resourceUnavailable ∨
      MultithreadedHTTPSource.open ⟨fun _ => none⟩ ("nope.html") 1 =
        .error .fetchError) ∧
    (HTTPSource.open ⟨fun _ => none⟩ ("nope.html") 0 =
        .error .resourceUnavailable ∨
      HTTPSource.open ⟨fun _ => none⟩ ("nope.html") 0 =
        .error .fetchError) ∧
    (MultithreadedHTTPSource.chunks ⟨testData, 1⟩ [1, 0] [(0, 6), (25, 40)]).length =
      ([(0, 6), (25, 40)] : List (Nat × Nat)).length ∧
    (HTTPSource.chunks ⟨testData, 0⟩ [(0, 6), (25, 40)]).length =
      ([(0, 6), (25, 40)] : List (Nat × Nat)).length ∧
    (MultithreadedHTTPSource.chunks ⟨testData, 1⟩ [1, 0] [(0, 6), (25, 40)])[1]? =
      some (some (fetchRange testData (25, 40))) ∧
    (HTTPSource.chunks ⟨testData, 0⟩ [(0, 6), (25, 40)])[1]? =
      some (some (fetchRange testData (25, 40))) ∧
    (MultithreadedHTTPSource.chunks ⟨testData, 1⟩ [1, 0] [(0, 6), (25, 40)])[1]? =
      some (some (.error .fetchError)) ∧
    (HTTPSource.chunks ⟨testData, 0⟩ [(0, 6), (25, 40)])[1]? =
      some (some (.error .fetchError)) :=
  have h := C5_http_failure_isolation ⟨fun _ => none⟩ ("nope.html") 1 0 [1, 0]
    testData [(0, 6), (25, 40)] 1 (25, 40) rfl (by decide) (by decide)
  ⟨h.1, h.2.1, h.2.2.1, h.2.2.2.1, h.2.2.2.2.1, h.2.2.2.2.2.1,
    h.2.2.2.2.2.2.1 (by decide), h.2.2.2.2.2.2.2 (by decide)⟩

/-- C6: vector reads split by `max_num_elements` return exactly what
requesting the ranges one at a time returns, in the caller's order; every
batch stays within the limit, and `max_num_elements = none` sends all
ranges in a single vector request with no splitting. -/
theorem C6_vector_split (data : List Nat) (m : Nat)
    (ranges : List (Nat × Nat)) (hm : 1 ≤ m) :
    XRootDSource.chunks ⟨data, some m⟩ ranges = ranges.map (fetchRange data) ∧
    XRootDSource.chunks ⟨data, none⟩ ranges = ranges.map (fetchRange data) ∧
    splitRanges none ranges = [ranges] ∧
    (splitRanges (some m) ranges).all (fun bt => decide (bt.length ≤ m)) = true := by
  refine ⟨XRootDSource.chunks_eq _ ranges, XRootDSource.chunks_eq _ ranges, rfl, ?_⟩
  rw [List.all_eq_true]
  intro bt hbt
  simpa using toBatches_batch_le m hm ranges bt (by simpa [splitRanges] using hbt)

/-- C6 witness: the six test ranges under an element cap of 2. -/
theorem C6_vector_split_witness :
    XRootDSource.chunks ⟨testData, some 2⟩ testRanges =
      testRanges.map (fetchRange testData) ∧
    XRootDSource.chunks ⟨testData, none⟩ testRanges =
      testRanges.map (fetchRange testData) ∧
    splitRanges none testRanges = [testRanges] ∧
    (splitRanges (some 2) testRanges).all (fun bt => decide (bt.length ≤ 2)) = true :=
  C6_vector_split testData 2 testRanges (by decide)

/-- C7: for every backend, the batched fetch is positionally aligned with
the requested ranges — the i-th handle holds the fetch of the i-th range —
and the result is independent of the internal completion order. -/
theorem C7_chunks_positional (b : Backend) (data : List Nat) (w : Nat)
    (maxElements : Option Nat) (sched sched' : List Nat)
    (ranges : List (Nat × Nat))
    (hs : validSched sched ranges.length)
    (hs' : validSched sched' ranges.length) :
    backendChunks b data w maxElements sched ranges =
      ranges.map (fun r => some (fetchRange data r)) ∧
    backendChunks b data w maxElements sched ranges =
      backendChunks b data w maxElements sched' ranges := by
  have h1 := backendChunks_of_validSched b data w maxElements sched ranges hs
  have h2 := backendChunks_of_validSched b data w maxElements sched' ranges hs'
  exact ⟨h1, h1.trans h2.symm⟩

/-- C7 witness: forward and reversed completion orders over the six test
ranges give the same positionally aligned result. -/
theorem C7_chunks_positional_witness :
    backendChunks .memmap testData 2 none (List.range 6) testRanges =
      testRanges.map (fun r => some (fetchRange testData r)) ∧
    backendChunks .memmap testData 2 none (List.range 6) testRanges =
      backendChunks .memmap testData 2 none [5, 4, 3, 2, 1, 0] testRanges :=
  C7_chunks_positional .memmap testData 2 none (List.range 6) [5, 4, 3, 2, 1, 0]
    testRanges (by decide) (by decide)

/-- C8: `TProfile2D.edges` returns the edges of the `fXaxis` member for
axis 0 or "x", the edges of the `fYaxis` member for axis 1 or "y", raises
`ValueError` for every other axis value, and consults no member of the
object other than `fXaxis` and `fYaxis`. -/
theorem C8_edges_dispatch (e : α → β) (s t : TProfile2D α) (axis : AxisArg)
    (hx : s.member ("fXaxis") = t.member ("fXaxis"))
    (hy : s.member ("fYaxis") = t.member ("fYaxis")) :
    TProfile2D.edges e s (.num 0) = .ok (e (s.member ("fXaxis"))) ∧
    TProfile2D.edges e s (.str ("x")) = .ok (e (s.member ("fXaxis"))) ∧
    TProfile2D.edges e s (.num 1) = .ok (e (s.member ("fYaxis"))) ∧
    TProfile2D.edges e s (.str ("y")) = .ok (e (s.member ("fYaxis"))) ∧
    (axis ≠ .num 0 → axis ≠ .str ("x") → axis ≠ .num 1 → axis ≠ .str ("y") →
      TProfile2D.edges e s axis = .error .valueError) ∧
    TProfile2D.edges e s axis = TProfile2D.edges e t axis := by
  refine ⟨rfl, rfl, rfl, rfl, ?_, ?_⟩
  · intro h0 hxs h1 hys
    have c1 : ¬ (axis = .num 0 ∨ axis = .str ("x")) := by
      rintro (h | h)
      · exact h0 h
      · exact hxs h
    have c2 : ¬ (axis = .num 1 ∨ axis = .str ("y")) := by
      rintro (h | h)
      · exact h1 h
      · exact hys h
    simp [TProfile2D.edges, c1, c2]
  · unfold TProfile2D.edges
    split_ifs <;> simp [hx, hy]

/-- C8 witness: a concrete object whose members agree with another only on
`fXaxis` and `fYaxis`, evaluated on every dispatch arm and on axis 2. -/
theorem C8_edges_dispatch_witness :
    TProfile2D.edges (fun n => n + 1) (⟨fun _ => 0⟩ : TProfile2D Nat) (.num 0) =
      .ok ((fun n => n + 1) ((⟨fun _ => 0⟩ : TProfile2D Nat).member ("fXaxis"))) ∧
    TProfile2D.edges (fun n => n + 1) (⟨fun _ => 0⟩ : TProfile2D Nat) (.str ("x")) =
      .ok ((fun n => n + 1) ((⟨fun _ => 0⟩ : TProfile2D Nat).member ("fXaxis"))) ∧
    TProfile2D.edges (fun n => n + 1) (⟨fun _ => 0⟩ : TProfile2D Nat) (.num 1) =
      .ok ((fun n => n + 1) ((⟨fun _ => 0⟩ : TProfile2D Nat).member ("fYaxis"))) ∧
    TProfile2D.edges (fun n => n + 1) (⟨fun _ => 0⟩ : TProfile2D Nat) (.str ("y")) =
      .ok ((fun n => n + 1) ((⟨fun _ => 0⟩ : TProfile2D Nat).member ("fYaxis"))) ∧
    TProfile2D.edges (fun n => n + 1) (⟨fun _ => 0⟩ : TProfile2D Nat) (.num 2) =
      .error .valueError ∧
    TProfile2D.edges (fun n => n + 1) (⟨fun _ => 0⟩ : TProfile2D Nat) (.num 2) =
      TProfile2D.edges (fun n => n + 1)
        (⟨fun nm => if nm = "fXaxis" ∨ nm = "fYaxis" then 0 else 7⟩ :
          TProfile2D Nat) (.num 2) :=
  have h := C8_edges_dispatch (fun n => n + 1) (⟨fun _ => 0⟩ : TProfile2D Nat)
    (⟨fun nm => if nm = "fXaxis" ∨ nm = "fYaxis" then 0 else 7⟩ : TProfile2D Nat)
    (.num 2) (by simp) (by simp)
  ⟨h.1, h.2.1, h.2.2.1, h.2.2.2.1,
    h.2.2.2.2.1 (by decide) (by decide) (by decide) (by decide), h.2.2.2.2.2⟩

/-- C9: `values`, `values_errors`, `to_numpy`, and `to_boost` on a
`TProfile2D` unconditionally raise `NotImplementedError` for all arguments
and leave the object unchanged. -/
theorem C9_not_implemented (self : TProfile2D α) (error_mode : Int)
    (flow dd errors : Bool) :
    TProfile2D.values self = (.error .notImplementedError, self) ∧
    TProfile2D.values_errors self error_mode =
      (.error .notImplementedError, self) ∧
    TProfile2D.to_numpy self flow dd errors error_mode =
      (.error .notImplementedError, self) ∧
    TProfile2D.to_boost self = (.error .notImplementedError, self) :=
  ⟨rfl, rfl, rfl, rfl⟩

/-- C10: `to_hist` always raises `NotImplementedError`, because it evaluates
`to_boost()`, which unconditionally raises; no `TProfile2D` is ever
converted to a hist object through this interface, and the object is left
unchanged. -/
theorem C10_to_hist_raises (self : TProfile2D α) :
    TProfile2D.to_hist self = (.error .notImplementedError, self) := rfl

end Uproot
